import Mathlib

/-!
# Verification of the neo-postman proxy engine, change log and stores

Shallow embedding of the core of the `neo-postman` repository:

* `src/backend/src/services/proxy.service.ts` — `executeProxyRequest`,
  `readResponseBody`, `categorizeError`;
* `src/backend/src/routes/proxy.ts` + `src/backend/src/models/schema.ts` —
  the proxy route's validation boundary;
* `src/frontend/src/services/api.ts` — `headersToRecord`;
* the Dexie `setActiveEnvironment` of `services/db`;
* the change-log `append` operation (not present in the sources; modelled
  from the spec).

Conventions: JavaScript strings are Lean `String`s; byte buffers
(`Uint8Array`, `ArrayBuffer`) are `List Nat`; the network is an explicit
parameter (a function from URL and fetch options to an outcome), so that the
engine — which in TypeScript awaits `fetch` — becomes a total function of the
request and of the network's behaviour.  All timestamps (`performance.now`)
are passed in explicitly.  Response bodies are kept as byte lists: the
`TextDecoder` step of the source is a byte-to-text decoding irrelevant to the
byte-length properties proved here.
-/

-- ===========================================================================
-- JavaScript string primitives
-- ===========================================================================

/-- Helper for `strIncludes`: scan every suffix for the pattern. -/
def includesAux (pat : List Char) : List Char → Bool
  | [] => pat.isEmpty
  | c :: cs => pat.isPrefixOf (c :: cs) || includesAux pat cs

/-- JavaScript's `String.prototype.includes`, on the character lists. -/
def strIncludes (s pat : String) : Bool :=
  includesAux pat.data s.data

/-- JavaScript's `String.prototype.toLowerCase` (ASCII range, which covers
every keyword the classifier matches). -/
def strLower (s : String) : String :=
  ⟨s.data.map Char.toLower⟩

/-- JavaScript's `String.prototype.trim`: strip leading and trailing
whitespace. -/
def strTrim (s : String) : String :=
  ⟨((s.data.dropWhile Char.isWhitespace).reverse.dropWhile Char.isWhitespace).reverse⟩

-- ===========================================================================
-- Error classifier (proxy.service.ts, categorizeError)
-- ===========================================================================

/-- The closed error taxonomy of `RequestErrorSchema` in `models/schema.ts`:
`z.enum(['timeout', 'network', 'dns', 'ssl', 'unknown'])`. -/
inductive ErrorType where
  | timeout
  | network
  | dns
  | ssl
  | unknown
deriving DecidableEq, Repr

/-- A `RequestError` value: `{ type, message }` (`models/schema.ts`). -/
structure RequestError where
  type : ErrorType
  message : String
deriving DecidableEq, Repr

/-- A caught JavaScript exception value, as `categorizeError` inspects it:
either an `instanceof Error` with a `name` and a `message`, or any other
thrown value (the final `return` of the source). -/
inductive JsError where
  | error (name : String) (message : String)
  | other
deriving DecidableEq, Repr

/-- `categorizeError` of `proxy.service.ts` (lines 181–235): keyword
matching on the lower-cased message, checked in source order
(abort → timeout, dns → dns, ssl → ssl, network → network, else unknown).
`strIncludes`/`strLower` model the JavaScript string primitives. -/
def categorizeError : JsError → RequestError
  | JsError.error name msg =>
    let message := strLower msg
    if name = "AbortError" ∨ strIncludes message "abort" then
      { type := ErrorType.timeout, message := "Request timed out" }
    else if strIncludes message "dns" ∨ strIncludes message "getaddrinfo" ∨
        strIncludes message "resolve" then
      { type := ErrorType.dns, message := "DNS lookup failed: " ++ msg }
    else if strIncludes message "ssl" ∨ strIncludes message "tls" ∨
        strIncludes message "certificate" then
      { type := ErrorType.ssl, message := "SSL/TLS error: " ++ msg }
    else if strIncludes message "network" ∨ strIncludes message "connect" ∨
        strIncludes message "econnrefused" ∨ strIncludes message "econnreset" ∨
        strIncludes message "enotfound" then
      { type := ErrorType.network, message := "Network error: " ++ msg }
    else
      { type := ErrorType.unknown, message := msg }
  | JsError.other =>
      { type := ErrorType.unknown, message := "An unknown error occurred" }

-- ===========================================================================
-- Bounded body reader (proxy.service.ts, readResponseBody)
-- ===========================================================================

/-- `MAX_BODY_SIZE` of `proxy.service.ts`: `10 * 1024 * 1024`. -/
def MAX_BODY_SIZE : Nat := 10 * 1024 * 1024

/-- An upstream HTTP response as `readResponseBody` consumes it.
`contentLength` is the already-parsed `content-length` header
(`none` for an absent header or a `parseInt` that returned `NaN`);
`chunks` are the byte chunks the body stream yields, in order;
`hasBody` models `response.body != null` (the `getReader` guard). -/
structure HttpResponse where
  status : Nat
  statusText : String
  headers : List (String × String)
  contentLength : Option Nat
  chunks : List (List Nat)
  hasBody : Bool
deriving DecidableEq, Repr

/-- Result of `readResponseBody`: `{ body, truncated, size }`.  The body is
kept as the bytes handed to `TextDecoder`. -/
structure ReadResult where
  body : List Nat
  truncated : Bool
  size : Nat
deriving DecidableEq, Repr

/-- The `while (totalSize < MAX_BODY_SIZE) { ... reader.read() ... }` loop of
`readResponseBody` (lines 135–141): before each read the accumulated size is
compared with the cap; a chunk is consumed whole, so the final total may
overshoot the cap.  Returns the chunks collected and the final `totalSize`. -/
def collectChunks (chunks : List (List Nat)) (totalSize : Nat) :
    List (List Nat) × Nat :=
  match chunks with
  | [] => ([], totalSize)
  | c :: cs =>
    if totalSize < MAX_BODY_SIZE then
      let rest := collectChunks cs (totalSize + c.length)
      (c :: rest.1, rest.2)
    else
      ([], totalSize)

/-- The chunk-concatenation loop of `readResponseBody` (lines 147–155):
copies each chunk into the combined buffer, capping the copy at
`MAX_BODY_SIZE - offset` bytes and stopping once the offset reaches the cap. -/
def copyChunks (chunks : List (List Nat)) (offset : Nat) : List Nat :=
  match chunks with
  | [] => []
  | c :: cs =>
    let remaining := MAX_BODY_SIZE - offset
    let toCopy := min c.length remaining
    let copied := c.take toCopy
    if MAX_BODY_SIZE ≤ offset + toCopy then copied
    else copied ++ copyChunks cs (offset + toCopy)

/-- The guard of `readResponseBody`'s short-circuit path: the parsed
`content-length` is truthy and exceeds the cap. -/
def declaredOverCap (response : HttpResponse) : Bool :=
  match response.contentLength with
  | some d => decide (d > MAX_BODY_SIZE)
  | none => false

/-- `readResponseBody` of `proxy.service.ts` (lines 118–173).  If the
declared `content-length` is truthy and exceeds the cap, the stream is read
incrementally up to the cap and the result reports `size := declaredSize`;
otherwise the whole body is buffered (`response.arrayBuffer()`, i.e. the
concatenation of all chunks) and truncated after the fact when it exceeds
the cap. -/
def readResponseBody (response : HttpResponse) : ReadResult :=
  if declaredOverCap response then
    if response.hasBody then
      let collected := collectChunks response.chunks 0
      { body := copyChunks collected.1 0
        truncated := true
        size := response.contentLength.getD 0 }
    else
      { body := [], truncated := false, size := 0 }
  else
    let arrayBuffer := response.chunks.flatten
    let size := arrayBuffer.length
    if size > MAX_BODY_SIZE then
      { body := arrayBuffer.take MAX_BODY_SIZE, truncated := true, size := size }
    else
      { body := arrayBuffer, truncated := false, size := size }

-- ===========================================================================
-- Proxy execution engine (proxy.service.ts, executeProxyRequest)
-- ===========================================================================

/-- A validated `ProxyRequest` (`models/schema.ts`, `ProxyRequestSchema`).
`body` is `Option String`: `none` models both `null` and an absent field. -/
structure ProxyRequest where
  method : String
  url : String
  headers : List (String × String)
  body : Option String
  timeout : Nat
deriving DecidableEq, Repr

/-- The `RequestInit` object built by `executeProxyRequest`
(lines 43–52): method, headers and — for truthy bodies on non-GET/HEAD
methods only — the request body. -/
structure FetchOptions where
  method : String
  headers : List (String × String)
  body : Option String
deriving DecidableEq, Repr

/-- JavaScript truthiness of `request.body`: `null`/`undefined` and the
empty string are falsy. -/
def bodyTruthy : Option String → Bool
  | some s => s ≠ ""
  | none => false

/-- Lines 43–52 of `proxy.service.ts`: build the fetch options;
`if (request.body && !['GET', 'HEAD'].includes(request.method))` attaches
the body. -/
def buildFetchOptions (request : ProxyRequest) : FetchOptions :=
  { method := request.method
    headers := request.headers
    body :=
      if bodyTruthy request.body ∧ ¬ (["GET", "HEAD"].contains request.method) then
        request.body
      else
        none }

/-- The `Timing` record (`models/schema.ts`): total, and optionally
first-byte and download durations, in milliseconds. -/
structure Timing where
  total : Nat
  firstByte : Option Nat
  download : Option Nat
deriving DecidableEq, Repr

/-- A `ProxyResponse` (`models/schema.ts`).  `error = none` models the
JSON `error: null`; the body is kept as bytes. -/
structure ProxyResponse where
  status : Nat
  statusText : String
  headers : List (String × String)
  body : List Nat
  bodyTruncated : Bool
  size : Nat
  timing : Timing
  error : Option RequestError
deriving DecidableEq, Repr

/-- The behaviour of the network for one call: given the URL and the fetch
options, either an upstream response or a thrown exception.  A rejection of
`fetch` itself, of the body read, or the timeout-driven abort all surface as
the `Except.error` case, exactly as they all land in the single `catch` of
`executeProxyRequest`. -/
def FetchBehaviour : Type := String → FetchOptions → Except JsError HttpResponse

/-- `executeProxyRequest` of `proxy.service.ts` (lines 29–110), as a total
function of the request, the network's behaviour, and the three captured
timestamps (`startTime`, `firstByteTime`, `endTime`, i.e. `performance.now`
at lines 30, 63 and 69/93).  The success path returns the upstream status,
headers, the bounded body and `error := none`; the catch path returns the
`status := 0` fallback with the classified error and no first-byte time. -/
def executeProxyRequest (request : ProxyRequest) (fetchImpl : FetchBehaviour)
    (startTime firstByteTime endTime : Nat) : ProxyResponse :=
  match fetchImpl request.url (buildFetchOptions request) with
  | Except.ok response =>
    let r := readResponseBody response
    { status := response.status
      statusText := response.statusText
      headers := response.headers
      body := r.body
      bodyTruncated := r.truncated
      size := r.size
      timing :=
        { total := endTime - startTime
          firstByte := some (firstByteTime - startTime)
          download := some (endTime - firstByteTime) }
      error := none }
  | Except.error e =>
    { status := 0
      statusText := ""
      headers := []
      body := []
      bodyTruncated := false
      size := 0
      timing := { total := endTime - startTime, firstByte := none, download := none }
      error := some (categorizeError e) }

-- ===========================================================================
-- Proxy route boundary (routes/proxy.ts + models/schema.ts)
-- ===========================================================================

/-- An incoming JSON payload for `POST /api/proxy`, before validation.
`timeout` is `none` when the field is absent (Zod then applies the default
of 30000). -/
structure RawProxyPayload where
  method : String
  url : String
  headers : List (String × String)
  body : Option String
  timeout : Option Int
deriving DecidableEq, Repr

/-- The verbs of `HttpMethodSchema` (`models/schema.ts`, lines 16–24). -/
def httpMethods : List String :=
  ["GET", "POST", "PUT", "PATCH", "DELETE", "HEAD", "OPTIONS"]

/-- Models the WHATWG URL parser behind `z.string().url()`: the string must
start with a non-empty scheme (a letter followed by letters, digits, `+`,
`-` or `.`) terminated by a colon — the shape every absolute URI shares.
Relative references such as `/x` or `example.com/x` are rejected. -/
def isAbsoluteUrl (s : String) : Bool :=
  let scheme := s.data.takeWhile (fun c => c ≠ ':')
  match s.data.drop scheme.length with
  | ':' :: _ =>
    (!scheme.isEmpty) &&
    (match scheme.head? with
     | some c => c.isAlpha
     | none => false) &&
    scheme.all (fun c => c.isAlpha || c.isDigit || c = '+' || c = '-' || c = '.')
  | _ => false

/-- `ProxyRequestSchema.safeParse` (`models/schema.ts`, lines 35–41): the
method must be one of the seven verbs, the URL absolute, and the timeout —
when present — an integer in `[0, 300000]`; an absent timeout defaults to
30000.  Returns `none` on a validation failure. -/
def validateProxyRequest (raw : RawProxyPayload) : Option ProxyRequest :=
  let timeoutOk : Bool :=
    match raw.timeout with
    | some t => decide (0 ≤ t ∧ t ≤ 300000)
    | none => true
  if httpMethods.contains raw.method && isAbsoluteUrl raw.url && timeoutOk then
    some
      { method := raw.method
        url := raw.url
        headers := raw.headers
        body := raw.body
        timeout := (raw.timeout.getD 30000).toNat }
  else
    none

/-- What the proxy route hands back: either the 400 `validation_error`
rejection (the parse failed, nothing was fetched) or the JSON-encoded
`ProxyResponse` of `executeProxyRequest`. -/
inductive RouteResult where
  | validationError (status : Nat) (error : String) (message : String)
  | proxied (response : ProxyResponse)
deriving DecidableEq, Repr

/-- The `proxy.post('/')` handler of `routes/proxy.ts` (lines 20–43):
validate with `ProxyRequestSchema.safeParse`, reject with HTTP 400 and
`error: 'validation_error'` on failure, otherwise run
`executeProxyRequest` against the network. -/
def handleProxy (raw : RawProxyPayload) (fetchImpl : FetchBehaviour)
    (startTime firstByteTime endTime : Nat) : RouteResult :=
  match validateProxyRequest raw with
  | none => RouteResult.validationError 400 "validation_error" "Invalid request body"
  | some request =>
    RouteResult.proxied (executeProxyRequest request fetchImpl startTime firstByteTime endTime)

-- ===========================================================================
-- Frontend header rows (api.ts, headersToRecord)
-- ===========================================================================

/-- A header row of the request builder (`types`, `Header`):
`{ key, value, enabled }`. -/
structure Header where
  key : String
  value : String
  enabled : Bool
deriving DecidableEq, Repr

/-- One JavaScript property assignment `record[k] = v`: properties are
compared by exact string equality, an existing property is overwritten in
place, a new one is appended.  The record is modelled as an association
list without duplicate keys, in property order. -/
def recordSet (record : List (String × String)) (k v : String) :
    List (String × String) :=
  if record.any (fun p => p.1 = k) then
    record.map (fun p => if p.1 = k then (k, v) else p)
  else
    record ++ [(k, v)]

/-- `headersToRecord` of `services/api.ts` (lines 366–378): fold the rows in
order, keeping a row only when it is enabled and its trimmed key is
non-empty (JavaScript truthiness of `header.key.trim()`). -/
def headersToRecord (headers : List Header) : List (String × String) :=
  headers.foldl
    (fun record h =>
      if h.enabled && strTrim h.key ≠ "" then recordSet record h.key h.value
      else record)
    []

-- ===========================================================================
-- Environment store (services/db, setActiveEnvironment)
-- ===========================================================================

/-- An `Environment` row as `setActiveEnvironment` touches it: the primary
key `id`, the display `name` and the `isActive` flag (the remaining fields
play no part in activation). -/
structure Environment where
  id : String
  name : String
  isActive : Bool
deriving DecidableEq, Repr

/-- `setActiveEnvironment` of `services/db` (Dexie): inside one `rw`
transaction, `modify({ isActive: false })` over the whole table, then —
`if (id)` — `update(id, { isActive: true })` on the row with that primary
key.  JavaScript truthiness makes both `null` and the empty string skip the
activation step.  The table is modelled as the list of its rows; `update`
by primary key touches every row carrying the id (primary keys being
unique, that is at most one row). -/
def setActiveEnvironment (environments : List Environment) (id : Option String) :
    List Environment :=
  let cleared := environments.map (fun e => { e with isActive := false })
  match id with
  | some i =>
    if i = "" then cleared
    else cleared.map (fun e => if e.id = i then { e with isActive := true } else e)
  | none => cleared

-- ===========================================================================
-- Change log (modelled from the spec)
-- ===========================================================================

/-- A `ChangeRecord` (`SyncChangeSchema` of `models/schema.ts`): id, entity
type, entity id, operation, optional data snapshot, timestamp, writer id. -/
structure ChangeRecord where
  id : String
  entityType : String
  entityId : String
  operation : String
  data : Option String
  timestamp : String
  clientId : String
deriving DecidableEq, Repr

/-- Modelled from the spec: the Change Log `append` operation
(spec §4.5) — the sync server routes are absent from the sources (only the
`SyncChangeSchema` declaration and a commented-out `/api/sync` route exist),
so the operation is taken from the spec's words: "`append(ChangeRecord)` —
fails only if the record's `id` already exists (idempotent re-append of an
identical record is a no-op, not an error)".  The log is the list of stored
records in append order; `none` is the failure (conflict) outcome. -/
def ChangeLog.append (log : List ChangeRecord) (record : ChangeRecord) :
    Option (List ChangeRecord) :=
  match log.find? (fun existing => existing.id = record.id) with
  | some existing => if existing = record then some log else none
  | none => some (log ++ [record])

-- ===========================================================================
-- Spec-side auxiliary definitions
-- ===========================================================================

/-- The number of bytes the reader actually observes from the stream: on the
short-circuit path, the `totalSize` accumulated by the read loop; otherwise
the length of the fully buffered body.  (This is the "bytes actually
observed" of the spec's §4.2 size requirement.) -/
def observedBytes (response : HttpResponse) : Nat :=
  if declaredOverCap response then
    if response.hasBody then (collectChunks response.chunks 0).2 else 0
  else
    response.chunks.flatten.length

-- ===========================================================================
-- Lemmas about the bounded body reader
-- ===========================================================================

/-- The chunk-copy loop writes exactly the first `MAX_BODY_SIZE - offset`
bytes of the concatenated chunks. -/
theorem copyChunks_eq_take (chunks : List (List Nat)) (offset : Nat) :
    copyChunks chunks offset = chunks.flatten.take (MAX_BODY_SIZE - offset) := by
  induction chunks generalizing offset with
  | nil => simp [copyChunks]
  | cons c cs ih =>
    simp only [copyChunks, List.flatten_cons]
    rw [List.take_append_eq_append_take]
    split
    · next h =>
      have h1 : min c.length (MAX_BODY_SIZE - offset) = MAX_BODY_SIZE - offset := by omega
      have h2 : MAX_BODY_SIZE - offset - c.length = 0 := by omega
      rw [h1, h2]
      simp
    · next h =>
      have h1 : min c.length (MAX_BODY_SIZE - offset) = c.length := by omega
      have h2 : MAX_BODY_SIZE - offset - c.length = MAX_BODY_SIZE - (offset + c.length) := by
        omega
      have h3 : c.take (MAX_BODY_SIZE - offset) = c := by
        apply List.take_of_length_le
        omega
      rw [h1, h2, h3, List.take_length, ih]

/-- The bytes collected by the read loop account exactly for the final
`totalSize`. -/
theorem collectChunks_flatten_length (chunks : List (List Nat)) (totalSize : Nat) :
    (collectChunks chunks totalSize).1.flatten.length + totalSize =
      (collectChunks chunks totalSize).2 := by
  induction chunks generalizing totalSize with
  | nil => simp [collectChunks]
  | cons c cs ih =>
    simp only [collectChunks]
    split
    · next h =>
      have := ih (totalSize + c.length)
      simp only [List.flatten_cons, List.length_append]
      omega
    · next h => simp

/-- The read loop stops short of the cap only when the stream is exhausted:
if enough bytes are available, the accumulated total reaches the cap. -/
theorem collectChunks_reaches_cap (chunks : List (List Nat)) (totalSize : Nat)
    (h : MAX_BODY_SIZE ≤ totalSize + chunks.flatten.length) :
    MAX_BODY_SIZE ≤ (collectChunks chunks totalSize).2 := by
  induction chunks generalizing totalSize with
  | nil => simpa using h
  | cons c cs ih =>
    simp only [collectChunks]
    split
    · next hlt =>
      apply ih
      simp only [List.flatten_cons, List.length_append] at h
      omega
    · next hge => omega

-- ===========================================================================
-- C3: truncation and body length
-- ===========================================================================

/-- C3 (counterexample): the claim "`bodyTruncated == true` implies
`len(body) == BODY_CAP` exactly — never fewer — including the short-circuit
path taken when the declared content length exceeds the cap but the stream
ends before the cap is reached" is false on the code: a response declaring
`content-length: 20971520` whose stream ends after 5 bytes yields
`truncated = true` with a 5-byte body. -/
theorem readResponseBody_truncated_short_body :
    (readResponseBody
      { status := 200, statusText := "OK", headers := [],
        contentLength := some (20 * 1024 * 1024),
        chunks := [[104, 101, 108, 108, 111]], hasBody := true
        : HttpResponse }).truncated = true ∧
    (readResponseBody
      { status := 200, statusText := "OK", headers := [],
        contentLength := some (20 * 1024 * 1024),
        chunks := [[104, 101, 108, 108, 111]], hasBody := true
        : HttpResponse }).body.length ≠ MAX_BODY_SIZE := by
  decide

/-- C3 (amended): whenever `readResponseBody` reports truncation the body
holds at most `MAX_BODY_SIZE` bytes, and exactly `MAX_BODY_SIZE` bytes
whenever the stream actually yields at least `MAX_BODY_SIZE` bytes; on the
short-circuit path with a stream that ends before the cap, the body holds
just the bytes observed. -/
theorem readResponseBody_truncated_body_length (response : HttpResponse)
    (h : (readResponseBody response).truncated = true) :
    (readResponseBody response).body.length ≤ MAX_BODY_SIZE ∧
      (MAX_BODY_SIZE ≤ response.chunks.flatten.length →
        (readResponseBody response).body.length = MAX_BODY_SIZE) := by
  by_cases hd : declaredOverCap response
  · by_cases hb : response.hasBody
    · have hcol := collectChunks_flatten_length response.chunks 0
      have hbody :
          (readResponseBody response).body =
            (collectChunks response.chunks 0).1.flatten.take MAX_BODY_SIZE := by
        simp [readResponseBody, hd, hb, copyChunks_eq_take]
      constructor
      · rw [hbody]
        simp [List.length_take]
      · intro hge
        have hcap := collectChunks_reaches_cap response.chunks 0 (by omega)
        rw [hbody]
        simp only [List.length_take]
        omega
    · exfalso
      simp [readResponseBody, hd, hb] at h
  · simp only [readResponseBody, hd, if_false, Bool.false_eq_true] at h ⊢
    split at h
    · next hgt =>
      simp only [if_pos hgt]
      constructor
      · simp [List.length_take]
      · intro _
        simp only [List.length_take]
        omega
    · simp at h

/-- C3 (witness for the amended theorem) at a concrete truncated response. -/
theorem readResponseBody_truncated_body_length_witness :
    (readResponseBody
      { status := 200, statusText := "OK", headers := [],
        contentLength := some (20 * 1024 * 1024),
        chunks := [[1, 2, 3]], hasBody := true : HttpResponse }).body.length ≤
        MAX_BODY_SIZE ∧
      (MAX_BODY_SIZE ≤
          ([[1, 2, 3]] : List (List Nat)).flatten.length →
        (readResponseBody
          { status := 200, statusText := "OK", headers := [],
            contentLength := some (20 * 1024 * 1024),
            chunks := [[1, 2, 3]], hasBody := true : HttpResponse }).body.length =
          MAX_BODY_SIZE) :=
  readResponseBody_truncated_body_length
    { status := 200, statusText := "OK", headers := [],
      contentLength := some (20 * 1024 * 1024),
      chunks := [[1, 2, 3]], hasBody := true : HttpResponse }
    (by decide)

-- ===========================================================================
-- C4: truncation and reported size
-- ===========================================================================

/-- C4 (counterexample): the claim "the returned size equals the larger of
the declared content length and the number of bytes actually observed" is
false on the code: `readResponseBody` returns `size := declaredSize` on the
short-circuit path, so a response declaring `MAX_BODY_SIZE + 1` bytes whose
first chunk carries `MAX_BODY_SIZE + 1000` bytes gets
`size = MAX_BODY_SIZE + 1` although
`max declared observed = MAX_BODY_SIZE + 1000`. -/
theorem readResponseBody_size_under_reports :
    (readResponseBody
      { status := 200, statusText := "OK", headers := [],
        contentLength := some (MAX_BODY_SIZE + 1),
        chunks := [List.replicate (MAX_BODY_SIZE + 1000) 0],
        hasBody := true : HttpResponse }).truncated = true ∧
    (readResponseBody
      { status := 200, statusText := "OK", headers := [],
        contentLength := some (MAX_BODY_SIZE + 1),
        chunks := [List.replicate (MAX_BODY_SIZE + 1000) 0],
        hasBody := true : HttpResponse }).size ≠
      max (MAX_BODY_SIZE + 1)
        (observedBytes
          { status := 200, statusText := "OK", headers := [],
            contentLength := some (MAX_BODY_SIZE + 1),
            chunks := [List.replicate (MAX_BODY_SIZE + 1000) 0],
            hasBody := true : HttpResponse }) := by
  have h01 : (0 : Nat) < MAX_BODY_SIZE := by norm_num [MAX_BODY_SIZE]
  have hd : declaredOverCap
      { status := 200, statusText := "OK", headers := [],
        contentLength := some (MAX_BODY_SIZE + 1),
        chunks := [List.replicate (MAX_BODY_SIZE + 1000) 0],
        hasBody := true : HttpResponse } = true := by
    simp [declaredOverCap]
  have hcol : collectChunks [List.replicate (MAX_BODY_SIZE + 1000) (0 : Nat)] 0 =
      ([List.replicate (MAX_BODY_SIZE + 1000) 0], MAX_BODY_SIZE + 1000) := by
    simp [collectChunks, h01]
  refine ⟨by simp [readResponseBody, hd], ?_⟩
  simp only [readResponseBody, observedBytes, hd, if_true, Option.getD_some, hcol]
  omega

/-- C4 (amended): whenever `readResponseBody` reports truncation the size
exceeds `MAX_BODY_SIZE` (so `size >= BODY_CAP` holds); on the full-read path
the size is exactly the observed byte count.  On the short-circuit path the
size is the declared content length alone, which the counterexample shows
can under-report the bytes actually observed. -/
theorem readResponseBody_truncated_size (response : HttpResponse)
    (h : (readResponseBody response).truncated = true) :
    MAX_BODY_SIZE < (readResponseBody response).size ∧
      (declaredOverCap response = false →
        (readResponseBody response).size = observedBytes response) := by
  by_cases hd : declaredOverCap response
  · by_cases hb : response.hasBody = true
    · cases hcl : response.contentLength with
      | none => simp [declaredOverCap, hcl] at hd
      | some d =>
        have hdgt : MAX_BODY_SIZE < d := by
          simpa [declaredOverCap, hcl] using hd
        constructor
        · simpa [readResponseBody, hd, hb, hcl] using hdgt
        · intro hcontra
          rw [hd] at hcontra
          cases hcontra
    · exfalso
      simp [readResponseBody, hd, hb] at h
  · have hd' : declaredOverCap response = false := by simpa using hd
    have hread :
        readResponseBody response =
          if response.chunks.flatten.length > MAX_BODY_SIZE then
            { body := response.chunks.flatten.take MAX_BODY_SIZE, truncated := true,
              size := response.chunks.flatten.length }
          else
            { body := response.chunks.flatten, truncated := false,
              size := response.chunks.flatten.length } := by
      simp only [readResponseBody, hd', Bool.false_eq_true, if_false]
    rw [hread] at h ⊢
    by_cases hgt : response.chunks.flatten.length > MAX_BODY_SIZE
    · rw [if_pos hgt]
      refine ⟨hgt, fun _ => ?_⟩
      simp [observedBytes, hd']
    · rw [if_neg hgt] at h
      simp at h

/-- C4 (witness for the amended theorem) at a concrete truncated response. -/
theorem readResponseBody_truncated_size_witness :
    MAX_BODY_SIZE <
      (readResponseBody
        { status := 200, statusText := "OK", headers := [],
          contentLength := some (20 * 1024 * 1024),
          chunks := [[1, 2, 3]], hasBody := true : HttpResponse }).size ∧
      (declaredOverCap
          { status := 200, statusText := "OK", headers := [],
            contentLength := some (20 * 1024 * 1024),
            chunks := [[1, 2, 3]], hasBody := true : HttpResponse } = false →
        (readResponseBody
          { status := 200, statusText := "OK", headers := [],
            contentLength := some (20 * 1024 * 1024),
            chunks := [[1, 2, 3]], hasBody := true : HttpResponse }).size =
          observedBytes
            { status := 200, statusText := "OK", headers := [],
              contentLength := some (20 * 1024 * 1024),
              chunks := [[1, 2, 3]], hasBody := true : HttpResponse }) :=
  readResponseBody_truncated_size
    { status := 200, statusText := "OK", headers := [],
      contentLength := some (20 * 1024 * 1024),
      chunks := [[1, 2, 3]], hasBody := true : HttpResponse }
    (by decide)

-- ===========================================================================
-- C1: error iff status zero
-- ===========================================================================

/-- C1: for every request and network behaviour — given the Fetch-standard
guarantee that a delivered response carries a non-zero status code — the
result of `executeProxyRequest` has a populated `error` iff its `status` is
`0`, and exactly one of "real status with `error = none`" and "`status = 0`
with a populated `error`" holds. -/
theorem executeProxyRequest_error_iff_status_zero (request : ProxyRequest)
    (fetchImpl : FetchBehaviour) (startTime firstByteTime endTime : Nat)
    (h : ∀ response, fetchImpl request.url (buildFetchOptions request) =
      Except.ok response → response.status ≠ 0) :
    ((executeProxyRequest request fetchImpl startTime firstByteTime endTime).error ≠
        none ↔
      (executeProxyRequest request fetchImpl startTime firstByteTime endTime).status =
        0) ∧
    (((executeProxyRequest request fetchImpl startTime firstByteTime endTime).status ≠
          0 ∧
        (executeProxyRequest request fetchImpl startTime firstByteTime endTime).error =
          none) ∨
      ((executeProxyRequest request fetchImpl startTime firstByteTime endTime).status =
          0 ∧
        (executeProxyRequest request fetchImpl startTime firstByteTime endTime).error ≠
          none)) := by
  cases hf : fetchImpl request.url (buildFetchOptions request) with
  | ok response =>
    have hs := h response hf
    simp [executeProxyRequest, hf, hs]
  | error e =>
    simp [executeProxyRequest, hf]

/-- C1 (witness): a concrete 200 response makes both conjuncts hold. -/
theorem executeProxyRequest_error_iff_status_zero_witness :
    ((executeProxyRequest ⟨"GET", "https://example.com", [], none, 30000⟩
        (fun _ _ => Except.ok ⟨200, "OK", [], none, [[104]], true⟩) 0 1 2).error ≠
        none ↔
      (executeProxyRequest ⟨"GET", "https://example.com", [], none, 30000⟩
        (fun _ _ => Except.ok ⟨200, "OK", [], none, [[104]], true⟩) 0 1 2).status =
        0) ∧
    (((executeProxyRequest ⟨"GET", "https://example.com", [], none, 30000⟩
          (fun _ _ => Except.ok ⟨200, "OK", [], none, [[104]], true⟩) 0 1 2).status ≠
          0 ∧
        (executeProxyRequest ⟨"GET", "https://example.com", [], none, 30000⟩
          (fun _ _ => Except.ok ⟨200, "OK", [], none, [[104]], true⟩) 0 1 2).error =
          none) ∨
      ((executeProxyRequest ⟨"GET", "https://example.com", [], none, 30000⟩
          (fun _ _ => Except.ok ⟨200, "OK", [], none, [[104]], true⟩) 0 1 2).status =
          0 ∧
        (executeProxyRequest ⟨"GET", "https://example.com", [], none, 30000⟩
          (fun _ _ => Except.ok ⟨200, "OK", [], none, [[104]], true⟩) 0 1 2).error ≠
          none)) :=
  executeProxyRequest_error_iff_status_zero
    ⟨"GET", "https://example.com", [], none, 30000⟩
    (fun _ _ => Except.ok ⟨200, "OK", [], none, [[104]], true⟩) 0 1 2
    (by intro r hr; injection hr with hr'; rw [← hr']; decide)

-- ===========================================================================
-- C2: the engine never throws; every failure becomes a classified result
-- ===========================================================================

/-- C2: `executeProxyRequest` is a total function (the embedding returns a
`ProxyResponse` for every input), and whenever the network behaviour fails —
fetch rejection, body-read rejection or the timeout-driven abort all being
`Except.error` outcomes — the result is exactly the `status := 0` fallback:
empty headers, empty body, `size = 0`, no first-byte timing, and the error
classified by `categorizeError`. -/
theorem executeProxyRequest_failure_result (request : ProxyRequest)
    (fetchImpl : FetchBehaviour) (e : JsError) (startTime firstByteTime endTime : Nat)
    (h : fetchImpl request.url (buildFetchOptions request) = Except.error e) :
    executeProxyRequest request fetchImpl startTime firstByteTime endTime =
      { status := 0, statusText := "", headers := [], body := [],
        bodyTruncated := false, size := 0,
        timing := { total := endTime - startTime, firstByte := none, download := none },
        error := some (categorizeError e) } := by
  simp [executeProxyRequest, h]

/-- C2 (witness): a concrete failing fetch produces the classified fallback. -/
theorem executeProxyRequest_failure_result_witness :
    executeProxyRequest ⟨"GET", "https://example.com", [], none, 30000⟩
        (fun _ _ => Except.error (JsError.error "TypeError" "error sending request"))
        5 0 12 =
      { status := 0, statusText := "", headers := [], body := [],
        bodyTruncated := false, size := 0,
        timing := { total := 12 - 5, firstByte := none, download := none },
        error :=
          some (categorizeError (JsError.error "TypeError" "error sending request")) } :=
  executeProxyRequest_failure_result
    ⟨"GET", "https://example.com", [], none, 30000⟩
    (fun _ _ => Except.error (JsError.error "TypeError" "error sending request"))
    (JsError.error "TypeError" "error sending request") 5 0 12 rfl

-- ===========================================================================
-- C8: no body on GET/HEAD
-- ===========================================================================

/-- C8: the fetch options `executeProxyRequest` hands to the network (it
invokes the fetch with exactly `buildFetchOptions request`) never carry a
body when the method is GET or HEAD, whatever the request's `body` field
holds. -/
theorem buildFetchOptions_no_body_for_get_head (request : ProxyRequest)
    (h : request.method = "GET" ∨ request.method = "HEAD") :
    (buildFetchOptions request).body = none := by
  cases h with
  | inl hg => simp [buildFetchOptions, hg]
  | inr hh => simp [buildFetchOptions, hh]

/-- C8 (witness): a GET request with a non-empty body string still yields
body-less fetch options. -/
theorem buildFetchOptions_no_body_for_get_head_witness :
    (buildFetchOptions
      ⟨"GET", "https://example.com", [], some "payload", 30000⟩).body = none :=
  buildFetchOptions_no_body_for_get_head
    ⟨"GET", "https://example.com", [], some "payload", 30000⟩ (Or.inl rfl)

-- ===========================================================================
-- C5: the route rejects malformed payloads before any network call
-- ===========================================================================

/-- C5: for every malformed payload — unknown method, non-absolute URL, or a
timeout outside `[0, 300000]` — and for EVERY network behaviour, the route
returns the HTTP 400 `validation_error` rejection: the result does not
depend on the network, `executeProxyRequest` is never reached, and the
rejection is a different constructor from a proxied `ProxyResult`. -/
theorem handleProxy_rejects_malformed (raw : RawProxyPayload)
    (fetchImpl : FetchBehaviour) (startTime firstByteTime endTime : Nat)
    (h : httpMethods.contains raw.method = false ∨ isAbsoluteUrl raw.url = false ∨
      ∃ t, raw.timeout = some t ∧ ¬(0 ≤ t ∧ t ≤ 300000)) :
    handleProxy raw fetchImpl startTime firstByteTime endTime =
      RouteResult.validationError 400 "validation_error" "Invalid request body" := by
  have hv : validateProxyRequest raw = none := by
    unfold validateProxyRequest
    rcases h with hm | hu | ⟨t, ht, hrange⟩
    · have hm' : raw.method ∉ httpMethods := by simpa using hm
      simp [hm']
    · simp [hu]
    · rw [ht]
      simp
      omega
  simp [handleProxy, hv]

/-- C5 (witness): an unknown method is rejected whatever the network does. -/
theorem handleProxy_rejects_malformed_witness :
    handleProxy ⟨"FOO", "https://example.com", [], none, none⟩
        (fun _ _ => Except.ok ⟨200, "OK", [], none, [], true⟩) 0 0 0 =
      RouteResult.validationError 400 "validation_error" "Invalid request body" :=
  handleProxy_rejects_malformed ⟨"FOO", "https://example.com", [], none, none⟩
    (fun _ _ => Except.ok ⟨200, "OK", [], none, [], true⟩) 0 0 0
    (Or.inl (by decide))

-- ===========================================================================
-- C7: the classifier is total and defaults to unknown
-- ===========================================================================

/-- The disjunction of every keyword condition `categorizeError` tests, in
source order (the abort/timeout marker, then the dns, ssl and network
keyword groups). -/
def matchesKnownFailure (name msg : String) : Bool :=
  let message := strLower msg
  decide (name = "AbortError") || strIncludes message "abort" ||
    strIncludes message "dns" || strIncludes message "getaddrinfo" ||
    strIncludes message "resolve" ||
    strIncludes message "ssl" || strIncludes message "tls" ||
    strIncludes message "certificate" ||
    strIncludes message "network" || strIncludes message "connect" ||
    strIncludes message "econnrefused" || strIncludes message "econnreset" ||
    strIncludes message "enotfound"

/-- C7: `categorizeError` is a total function — for every thrown value it
returns a `RequestError` whose type is one of the five taxonomy members —
and any `Error` whose name and message match none of the keyword groups is
classified `unknown` with the original message preserved verbatim. -/
theorem categorizeError_total_unknown_default (e : JsError) :
    (categorizeError e).type ∈
      [ErrorType.timeout, ErrorType.network, ErrorType.dns, ErrorType.ssl,
        ErrorType.unknown] ∧
    ∀ name msg, e = JsError.error name msg →
      matchesKnownFailure name msg = false →
      categorizeError e = { type := ErrorType.unknown, message := msg } := by
  constructor
  · cases h : (categorizeError e).type <;> simp
  · rintro name msg rfl hm
    simp only [matchesKnownFailure, Bool.or_eq_false_iff,
      decide_eq_false_iff_not] at hm
    simp [categorizeError, hm]

/-- C7 (witness): a concrete unmatched failure is classified unknown with
its message kept. -/
theorem categorizeError_total_unknown_default_witness :
    categorizeError (JsError.error "SomeError" "mysterious failure") =
      { type := ErrorType.unknown, message := "mysterious failure" } ∧
    (categorizeError (JsError.error "SomeError" "mysterious failure")).type ∈
      [ErrorType.timeout, ErrorType.network, ErrorType.dns, ErrorType.ssl,
        ErrorType.unknown] :=
  ⟨(categorizeError_total_unknown_default
        (JsError.error "SomeError" "mysterious failure")).2
      "SomeError" "mysterious failure" rfl (by decide),
    (categorizeError_total_unknown_default
        (JsError.error "SomeError" "mysterious failure")).1⟩

-- ===========================================================================
-- C6: change-log append idempotence
-- ===========================================================================

/-- C6: appending a fresh `ChangeRecord` succeeds; re-appending the very
same record reports success again and stores nothing new — the log holds
exactly one record with that id — and `append` fails only when the log
already holds a record with the same id but different content.
(Spec-modelled: see `ChangeLog.append`.) -/
theorem ChangeLog.append_idempotent (log : List ChangeRecord) (record : ChangeRecord)
    (h : ∀ existing ∈ log, existing.id ≠ record.id) :
    ∃ stored, ChangeLog.append log record = some stored ∧
      ChangeLog.append stored record = some stored ∧
      (stored.filter (fun r => r.id = record.id)).length = 1 ∧
      ∀ other : List ChangeRecord, ChangeLog.append other record = none →
        ∃ existing ∈ other, existing.id = record.id ∧ existing ≠ record := by
  have hfind : log.find? (fun existing => existing.id = record.id) = none := by
    rw [List.find?_eq_none]
    intro x hx
    simp [h x hx]
  refine ⟨log ++ [record], ?_, ?_, ?_, ?_⟩
  · simp [ChangeLog.append, hfind]
  · have hfind2 : (log ++ [record]).find? (fun existing => existing.id = record.id) =
        some record := by
      rw [List.find?_append, hfind]
      simp [List.find?]
    simp [ChangeLog.append, hfind2]
  · rw [List.filter_append]
    have hnil : log.filter (fun r => r.id = record.id) = [] := by
      rw [List.filter_eq_nil_iff]
      intro x hx
      simp [h x hx]
    simp [hnil]
  · intro other hother
    unfold ChangeLog.append at hother
    cases hfo : other.find? (fun existing => existing.id = record.id) with
    | none =>
      rw [hfo] at hother
      cases hother
    | some existing =>
      rw [hfo] at hother
      by_cases he : existing = record
      · simp [he] at hother
      · exact ⟨existing, List.mem_of_find?_eq_some hfo,
          by simpa using List.find?_some hfo, he⟩

/-- C6 (witness): a concrete record appended twice to the empty log. -/
theorem ChangeLog.append_idempotent_witness :
    ∃ stored,
      ChangeLog.append []
          ⟨"id-1", "environment", "e-1", "create", some "snapshot",
            "2025-12-05T00:00:00Z", "client-a"⟩ = some stored ∧
      ChangeLog.append stored
          ⟨"id-1", "environment", "e-1", "create", some "snapshot",
            "2025-12-05T00:00:00Z", "client-a"⟩ = some stored ∧
      (stored.filter (fun r => r.id =
          (⟨"id-1", "environment", "e-1", "create", some "snapshot",
            "2025-12-05T00:00:00Z", "client-a"⟩ : ChangeRecord).id)).length = 1 ∧
      ∀ other : List ChangeRecord,
        ChangeLog.append other
            ⟨"id-1", "environment", "e-1", "create", some "snapshot",
              "2025-12-05T00:00:00Z", "client-a"⟩ = none →
        ∃ existing ∈ other,
          existing.id =
              (⟨"id-1", "environment", "e-1", "create", some "snapshot",
                "2025-12-05T00:00:00Z", "client-a"⟩ : ChangeRecord).id ∧
            existing ≠
              ⟨"id-1", "environment", "e-1", "create", some "snapshot",
                "2025-12-05T00:00:00Z", "client-a"⟩ :=
  ChangeLog.append_idempotent []
    ⟨"id-1", "environment", "e-1", "create", some "snapshot",
      "2025-12-05T00:00:00Z", "client-a"⟩
    (by intro x hx; cases hx)

-- ===========================================================================
-- C9: header record construction
-- ===========================================================================

/-- If no entry of the record has key `k`, appending `(k, v)` makes lookup
of `k` return `v`. -/
theorem lookup_append_fresh (record : List (String × String)) (k v : String)
    (h : record.any (fun p => p.1 = k) = false) :
    List.lookup k (record ++ [(k, v)]) = some v := by
  induction record with
  | nil => simp [List.lookup]
  | cons p ps ih =>
    simp only [List.any_cons, Bool.or_eq_false_iff, decide_eq_false_iff_not] at h
    obtain ⟨hp, hps⟩ := h
    rw [List.cons_append, List.lookup_cons]
    have hk : (k == p.1) = false := by
      simp
      exact fun heq => hp heq.symm
    rw [hk]
    exact ih hps

/-- If some entry of the record has key `k`, the in-place overwrite makes
lookup of `k` return `v`. -/
theorem lookup_overwrite (record : List (String × String)) (k v : String)
    (h : record.any (fun p => p.1 = k) = true) :
    List.lookup k (record.map (fun p => if p.1 = k then (k, v) else p)) = some v := by
  induction record with
  | nil => simp at h
  | cons p ps ih =>
    by_cases hp : p.1 = k
    · rw [List.map_cons, if_pos hp, List.lookup_cons]
      simp
    · rw [List.map_cons, if_neg hp, List.lookup_cons]
      have hk : (k == p.1) = false := by
        simp
        exact fun heq => hp heq.symm
      rw [hk]
      apply ih
      simp only [List.any_cons, Bool.or_eq_true_iff, decide_eq_true_eq] at h
      rcases h with h | h
      · exact absurd h hp
      · exact h

/-- A JavaScript property write always wins the subsequent lookup of its
exact key. -/
theorem lookup_recordSet (record : List (String × String)) (k v : String) :
    List.lookup k (recordSet record k v) = some v := by
  unfold recordSet
  by_cases hany : record.any (fun p => p.1 = k) = true
  · rw [if_pos hany]
    exact lookup_overwrite record k v hany
  · rw [if_neg hany]
    exact lookup_append_fresh record k v (Bool.eq_false_iff.mpr hany)

/-- Processing one more enabled row with a non-empty trimmed key is one
`record[key] = value` assignment on the record built so far. -/
theorem headersToRecord_append_enabled (hs : List Header) (h : Header)
    (henabled : h.enabled = true) (hkey : strTrim h.key ≠ "") :
    headersToRecord (hs ++ [h]) = recordSet (headersToRecord hs) h.key h.value := by
  unfold headersToRecord
  rw [List.foldl_append]
  simp [henabled, hkey]

/-- C9 (counterexample): the claim that keys are case-insensitive — "two
rows whose keys differ only in letter case map to a single entry" — is false
on `headersToRecord`: `Accept` and `ACCEPT` produce two distinct entries. -/
theorem headersToRecord_case_sensitive :
    headersToRecord [⟨"Accept", "a", true⟩, ⟨"ACCEPT", "b", true⟩] =
      [("Accept", "a"), ("ACCEPT", "b")] ∧
    (headersToRecord [⟨"Accept", "a", true⟩, ⟨"ACCEPT", "b", true⟩]).length ≠ 1 := by
  decide

/-- C9 (amended): `headersToRecord` treats keys case-SENSITIVELY — rows
whose keys differ only in case yield separate entries (see the
counterexample) — while rows with the exact same key resolve last-wins: the
final enabled row's value is the one the constructed record returns for
that key. -/
theorem headersToRecord_last_wins (hs : List Header) (h : Header)
    (henabled : h.enabled = true) (hkey : strTrim h.key ≠ "") :
    List.lookup h.key (headersToRecord (hs ++ [h])) = some h.value := by
  rw [headersToRecord_append_enabled hs h henabled hkey]
  exact lookup_recordSet (headersToRecord hs) h.key h.value

/-- C9 (witness): the later of two rows with the identical key wins. -/
theorem headersToRecord_last_wins_witness :
    List.lookup "X-Key" (headersToRecord
      ([⟨"X-Key", "old", true⟩] ++ [⟨"X-Key", "new", true⟩])) = some "new" :=
  headersToRecord_last_wins [⟨"X-Key", "old", true⟩] ⟨"X-Key", "new", true⟩
    rfl (by decide)

-- ===========================================================================
-- C10: at most one active environment
-- ===========================================================================

/-- Counting rows by id equals counting the id among the mapped ids. -/
theorem countP_id_eq_count (envs : List Environment) (i : String) :
    envs.countP (fun e => e.id = i) = (envs.map Environment.id).count i := by
  induction envs with
  | nil => simp
  | cons e es ih =>
    simp only [List.countP_cons, List.map_cons, List.count_cons, ih]
    by_cases he : e.id = i
    · simp [he]
    · simp [he]

/-- Activating a truthy (non-empty) `i` rewrites every row to an explicit
cleared/activated form. -/
theorem setActiveEnvironment_some_eq (environments : List Environment) (i : String)
    (hi : i ≠ "") :
    setActiveEnvironment environments (some i) =
      environments.map (fun e =>
        { id := e.id, name := e.name, isActive := decide (e.id = i) }) := by
  simp only [setActiveEnvironment, if_neg hi, List.map_map]
  apply List.map_congr_left
  intro e _
  by_cases he : e.id = i
  · simp [Function.comp, he]
  · simp [Function.comp, he]

/-- C10 (counterexample): the original claim's "at most one is active —
the one whose id was passed, if it exists" fails at the empty id:
JavaScript's `if (id)` treats `""` as falsy, so the source skips the
activation update and activates nothing even when a row with id `""`
exists in the store. -/
theorem setActiveEnvironment_empty_id_activates_nothing :
    (∃ e ∈ ([⟨"", "E", false⟩] : List Environment), e.id = "") ∧
    ¬∃ e ∈ setActiveEnvironment [⟨"", "E", false⟩] (some ""),
        e.isActive = true ∧ e.id = "" := by
  decide

/-- C10 (amended): after `setActiveEnvironment environments (some i)` —
whose clear-all-then-set-one sequence the embedding performs atomically, as
the Dexie transaction does — at most one row is active, every active row
has id `i`, and when `i` is non-empty (truthy) the row with id `i`, if it
exists, is active; after `setActiveEnvironment environments none` — and
likewise for the falsy empty-string id — no row is active.  This holds for
every starting configuration of `isActive` flags, assuming only the primary
keys are unique. -/
theorem setActiveEnvironment_unique_active (environments : List Environment)
    (h : (environments.map Environment.id).Nodup) :
    (∀ i : String,
      ((setActiveEnvironment environments (some i)).filter
          (fun e => e.isActive)).length ≤ 1 ∧
      (∀ e ∈ setActiveEnvironment environments (some i),
        e.isActive = true → e.id = i) ∧
      (i ≠ "" → (∃ e ∈ environments, e.id = i) →
        ∃ e ∈ setActiveEnvironment environments (some i),
          e.isActive = true ∧ e.id = i)) ∧
    ∀ e ∈ setActiveEnvironment environments none, e.isActive = false := by
  have hcleared : ∀ e ∈ environments.map (fun e => { e with isActive := false }),
      e.isActive = false := by
    intro e he
    obtain ⟨e0, _, rfl⟩ := List.mem_map.mp he
    rfl
  constructor
  · intro i
    by_cases hi : i = ""
    · subst hi
      have hempty : setActiveEnvironment environments (some "") =
          environments.map (fun e => { e with isActive := false }) := by
        simp [setActiveEnvironment]
      have hnil : (environments.map (fun e => { e with isActive := false })).filter
          (fun e => e.isActive) = [] := by
        rw [List.filter_eq_nil_iff]
        intro e he
        simp [hcleared e he]
      refine ⟨?_, ?_, ?_⟩
      · rw [hempty, hnil]
        simp
      · intro e he hact
        rw [hempty] at he
        rw [hcleared e he] at hact
        cases hact
      · intro hne _
        exact absurd rfl hne
    · refine ⟨?_, ?_, ?_⟩
      · rw [setActiveEnvironment_some_eq environments i hi, List.filter_map]
        rw [List.length_map]
        have hcomp : ((fun e : Environment => e.isActive) ∘
            (fun e : Environment =>
              ({ id := e.id, name := e.name, isActive := decide (e.id = i) } :
                Environment))) =
            fun e : Environment => decide (e.id = i) := rfl
        rw [hcomp, ← List.countP_eq_length_filter, countP_id_eq_count]
        exact List.nodup_iff_count_le_one.mp h i
      · intro e he hact
        rw [setActiveEnvironment_some_eq environments i hi] at he
        obtain ⟨e0, _, rfl⟩ := List.mem_map.mp he
        simpa using hact
      · rintro _ ⟨e0, he0, hid⟩
        rw [setActiveEnvironment_some_eq environments i hi]
        exact ⟨_, List.mem_map_of_mem _ he0, by simp [hid], by simp [hid]⟩
  · intro e he
    simp only [setActiveEnvironment] at he
    obtain ⟨e0, _, rfl⟩ := List.mem_map.mp he
    rfl

/-- C10 (witness): two environments, both initially (and illegally) active,
end with a unique active row. -/
theorem setActiveEnvironment_unique_active_witness :
    (∀ i : String,
      ((setActiveEnvironment [⟨"a", "A", true⟩, ⟨"b", "B", true⟩] (some i)).filter
          (fun e => e.isActive)).length ≤ 1 ∧
      (∀ e ∈ setActiveEnvironment [⟨"a", "A", true⟩, ⟨"b", "B", true⟩] (some i),
        e.isActive = true → e.id = i) ∧
      (i ≠ "" →
        (∃ e ∈ ([⟨"a", "A", true⟩, ⟨"b", "B", true⟩] : List Environment),
          e.id = i) →
        ∃ e ∈ setActiveEnvironment [⟨"a", "A", true⟩, ⟨"b", "B", true⟩] (some i),
          e.isActive = true ∧ e.id = i)) ∧
    ∀ e ∈ setActiveEnvironment [⟨"a", "A", true⟩, ⟨"b", "B", true⟩] none,
      e.isActive = false :=
  setActiveEnvironment_unique_active [⟨"a", "A", true⟩, ⟨"b", "B", true⟩]
    (by decide)
